import Mathlib

/-!
# antechamber: the image-asset proxy of `server.go`

A shallow embedding of `checkRedirect`, `hostAllowed` and `proxyRequest`.

Conventions of the embedding.

* A Go `string` is a sequence of bytes.  It is represented by a Lean `String`
  in which every character stands for one byte (the byte `b` is the character
  with code point `b`), so that slicing and indexing act on bytes.  All the
  literals of `server.go` are ASCII.
* A `[]byte` (a `net.IP`, a response body) is a `List Nat`.
* The outside world (`net.LookupIP`, `url.Parse`, `httpClient.Do`) is an
  explicit `World`; every call made to it is recorded in a trace of `Event`s.
* A run-time panic (index or slice out of range) is an explicit outcome.
-/

namespace Antechamber

/-! ## Constants -/

/-- The constant `maxSize` (line 16). -/
def maxSize : Nat := 5242880

/-- A `net.IP`: a slice of bytes. -/
abbrev IP := List Nat

/-- The table `blockNetworks` (lines 18-26). -/
def blockNetworks : List (List Nat) :=
  [ [169, 254]   -- IPv4 Link-local
  , [10]         -- IPv4 Private
  , [172, 16]
  , [192, 168] ]

/-! ## hostAllowed (lines 40-61) -/

/-- How a loop body of `hostAllowed` leaves the loop nest. -/
inductive Flow where
  /-- the loop ran to its end -/
  | done
  /-- the statement `continue networks` -/
  | continueNetworks
  /-- the statement `return false` -/
  | returnFalse
  /-- the index expression `ip[i]` was out of range -/
  | panic
  deriving DecidableEq, Repr

/-- The innermost loop `for i, b := range net` (lines 48-56), started at
index `i`.  Its body leaves the loop on both branches of the `if`: by
`continue networks` when the octet differs, by `return false` when it does
not, so the remaining octets of `net` are not visited. -/
def octetLoop (ip : IP) : Nat → List Nat → Flow
  | _, [] => Flow.done
  | i, b :: _ =>
    match ip.get? i with
    | none => Flow.panic
    | some o => if o ≠ b then Flow.continueNetworks else Flow.returnFalse

/-- The labelled loop `networks: for _, net := range blockNetworks`
(lines 46-57) for one address. -/
def networksLoop (ip : IP) : List (List Nat) → Flow
  | [] => Flow.done
  | net :: rest =>
    match octetLoop ip 0 net with
    | Flow.panic => Flow.panic
    | Flow.returnFalse => Flow.returnFalse
    | Flow.continueNetworks => networksLoop ip rest
    | Flow.done => networksLoop ip rest

/-- The outer loop `for _, ip := range ips` (lines 45-58). -/
def ipsLoop : List IP → Flow
  | [] => Flow.done
  | ip :: rest =>
    match networksLoop ip blockNetworks with
    | Flow.panic => Flow.panic
    | Flow.returnFalse => Flow.returnFalse
    | _ => ipsLoop rest

/-- The body of `hostAllowed` after the call of `net.LookupIP` (lines 42-60),
as a function of what the lookup returned.  `none` is a panic. -/
def hostAllowedOf (looked : Except String (List IP)) : Option Bool :=
  match looked with
  | Except.error _ => some false
  | Except.ok ips =>
    if ips.length = 0 then some false
    else
      match ipsLoop ips with
      | Flow.panic => none
      | Flow.returnFalse => some false
      | _ => some true

/-- The function `hostAllowed` (lines 40-61) over the resolver `lookupIP`. -/
def hostAllowed (lookupIP : String → Except String (List IP)) (host : String) : Option Bool :=
  hostAllowedOf (lookupIP host)

/-- An address as `net.LookupIP` returns it: 4 bytes (IPv4) or 16 bytes. -/
def validIP (ip : IP) : Prop := ip.length = 4 ∨ ip.length = 16

instance (ip : IP) : Decidable (validIP ip) := by unfold validIP; infer_instance

/-! ## checkRedirect (lines 30-38) -/

/-- The fields of `url.URL` the program reads; `Query` is what
`URL.Query()` returns, as key/value pairs in order. -/
structure URL where
  Scheme : String
  Host : String
  Path : String
  Query : List (String × String)
  deriving DecidableEq, Repr

/-- An `http.Header`: the map stores its keys in canonical form (`Etag`,
`Content-Type`), one value per key. -/
abbrev Header := List (String × String)

/-- Function `validHeaderFieldByte` of `net/textproto`: the token bytes of
a header name. -/
def validHeaderFieldByte (c : Char) : Bool :=
  decide (c.toNat = 33) || decide (35 ≤ c.toNat ∧ c.toNat ≤ 39) ||
  decide (c.toNat = 42) || decide (c.toNat = 43) || decide (c.toNat = 45) ||
  decide (c.toNat = 46) || decide (48 ≤ c.toNat ∧ c.toNat ≤ 57) ||
  decide (65 ≤ c.toNat ∧ c.toNat ≤ 90) || decide (94 ≤ c.toNat ∧ c.toNat ≤ 122) ||
  decide (c.toNat = 124) || decide (c.toNat = 126)

/-- The loop of `canonicalMIMEHeaderKey`: a letter at the start or after a
hyphen becomes upper case, every other letter lower case. -/
def canonicalLoop : List Char → Bool → List Char
  | [], _ => []
  | c :: t, upper =>
    let c1 : Char :=
      if upper = true ∧ 97 ≤ c.toNat ∧ c.toNat ≤ 122 then Char.ofNat (c.toNat - 32)
      else if upper = false ∧ 65 ≤ c.toNat ∧ c.toNat ≤ 90 then Char.ofNat (c.toNat + 32)
      else c
    c1 :: canonicalLoop t (decide (c1.toNat = 45))

/-- Function `textproto.CanonicalMIMEHeaderKey`: a key with a byte that is no
token byte is returned unchanged. -/
def CanonicalMIMEHeaderKey (s : String) : String :=
  if s.toList.all validHeaderFieldByte then String.mk (canonicalLoop s.toList true) else s

/-- Method `Header.Get`: the value stored under the canonical form of `key`,
or the empty string. -/
def Header.Get (h : Header) (key : String) : String :=
  match h.find? (fun kv => kv.1 == CanonicalMIMEHeaderKey key) with
  | some kv => kv.2
  | none => ""

/-- Method `Header.Set`: replaces whatever the canonical form of `key` held. -/
def Header.Set (h : Header) (key value : String) : Header :=
  (CanonicalMIMEHeaderKey key, value) ::
    h.filter (fun kv => kv.1 != CanonicalMIMEHeaderKey key)

/-- Method `url.Values.Get`: the first value of `key`, or the empty string. -/
def valuesGet (q : List (String × String)) (key : String) : String :=
  match q.find? (fun kv => kv.1 == key) with
  | some kv => kv.2
  | none => ""

/-- The fields of `http.Request` the program reads or writes. -/
structure Request where
  Method : String
  URL : URL
  Header : Header
  Host : String
  deriving DecidableEq, Repr

/-- The function `checkRedirect` (lines 30-38).  `none` is a panic,
`some (Except.ok ())` the `nil` error, `some (Except.error msg)` the error
`errors.New(msg)`. -/
def checkRedirect (lookupIP : String → Except String (List IP))
    (req : Request) (via : List Request) : Option (Except String Unit) :=
  if via.length ≥ 4 then
    some (Except.error "Stopped after 10 redirects")
  else if req.Host ≠ "" then
    match hostAllowed lookupIP req.Host with
    | none => none
    | some false => some (Except.error "Invalid host")
    | some true => some (Except.ok ())
  else
    some (Except.ok ())

/-! ## Library functions of the handler -/

/-- Function `strings.Index` from position `i` on: the index of the first occurrence
of `sub`, or `-1`. -/
def stringsIndexAux (sub : List Char) : List Char → Nat → Int
  | [], i => if sub.isPrefixOf [] then (i : Int) else -1
  | c :: t, i => if sub.isPrefixOf (c :: t) then (i : Int) else stringsIndexAux sub t (i + 1)

/-- Function `strings.Index(s, substr)`. -/
def stringsIndex (s substr : String) : Int :=
  stringsIndexAux substr.toList s.toList 0

/-- Function `fromHexChar` of `encoding/hex`. -/
def fromHexChar (c : Char) : Option Nat :=
  if 48 ≤ c.toNat ∧ c.toNat ≤ 57 then some (c.toNat - 48)          -- 0..9
  else if 97 ≤ c.toNat ∧ c.toNat ≤ 102 then some (c.toNat - 97 + 10) -- a..f
  else if 65 ≤ c.toNat ∧ c.toNat ≤ 70 then some (c.toNat - 65 + 10)  -- A..F
  else none

/-- Function `hex.DecodeString`: `none` when it returns an error (odd length or a
byte that is no hexadecimal digit). -/
def hexDecodeString : List Char → Option (List Nat)
  | [] => some []
  | [_] => none
  | a :: b :: rest =>
    match fromHexChar a, fromHexChar b, hexDecodeString rest with
    | some x, some y, some t => some ((x * 16 + y) :: t)
    | _, _, _ => none

/-- The error of `strconv.ParseUint`. -/
inductive NumError where
  /-- the `nil` error -/
  | nil
  /-- the error `ErrSyntax` -/
  | syntaxError
  /-- the error `ErrRange` -/
  | rangeError
  deriving DecidableEq, Repr

/-- The loop of `strconv.ParseUint(s, 10, 64)` over the bytes of `s`, `n`
being the value read so far: a byte that is no digit ends it with a syntax
error, an overflow of 64 bits ends it at once with the largest value and a
range error. -/
def parseUintLoop : List Char → Nat → Nat × NumError
  | [], n => (n, NumError.nil)
  | c :: t, n =>
    if ¬ (48 ≤ c.toNat ∧ c.toNat ≤ 57) then (0, NumError.syntaxError)
    else if n ≥ (2 ^ 64 - 1) / 10 + 1 then (2 ^ 64 - 1, NumError.rangeError)
    else if n * 10 + (c.toNat - 48) > 2 ^ 64 - 1 then (2 ^ 64 - 1, NumError.rangeError)
    else parseUintLoop t (n * 10 + (c.toNat - 48))

/-- The function `strconv.ParseUint(s, 10, 64)`. -/
def parseUint (s : List Char) : Nat × NumError :=
  if s = [] then (0, NumError.syntaxError) else parseUintLoop s 0

/-- The value of `strconv.ParseInt(s, 10, 0)` for a 64-bit `int`: `0` on a
syntax error, the nearest bound on a range error. -/
def parseInt (s : List Char) : Int :=
  if s = [] then 0
  else
    let neg : Bool := s.head? = some (Char.ofNat 45)
    let s1 : List Char :=
      if s.head? = some (Char.ofNat 43) ∨ s.head? = some (Char.ofNat 45) then s.tail else s
    match parseUint s1 with
    | (_, NumError.syntaxError) => 0
    | (un, _) =>
      if neg = false ∧ un ≥ 2 ^ 63 then (2 ^ 63 - 1 : Int)
      else if neg = true ∧ un > 2 ^ 63 then -(2 ^ 63 : Int)
      else if neg = true then -(un : Int)
      else (un : Int)

/-- The value `strconv.Atoi` returns (its error is dropped at line 157).
The fast path of `Atoi` for short strings computes what `ParseInt` does. -/
def atoi (s : String) : Int := parseInt s.toList

/-- Value of a run of decimal digits. -/
def digitsValue (ds : List Char) : Nat :=
  ds.foldl (fun n ch => n * 10 + (ch.toNat - 48)) 0

/-- Whether every byte is a decimal digit. -/
def allDigits (ds : List Char) : Bool :=
  ds.all (fun ch => decide (48 ≤ ch.toNat) && decide (ch.toNat ≤ 57))

/-- The slice expression `s[:n]`, for `n` within the length of `s`. -/
def sliceTo (s : String) (n : Nat) : String := String.mk (s.toList.take n)

/-- The slice expression `s[n:]`, for `n` within the length of `s`. -/
def sliceFrom (s : String) (n : Nat) : String := String.mk (s.toList.drop n)

/-- The bytes of a string. -/
def bytesOf (s : String) : List Nat := s.toList.map Char.toNat

/-- The conversion `string(bytes)`. -/
def stringOf (bs : List Nat) : String := String.mk (bs.map Char.ofNat)

/-! ## The response writer -/

def StatusOK : Nat := 200
def StatusNotModified : Nat := 304
def StatusBadRequest : Nat := 400
def StatusNotFound : Nat := 404
def StatusMethodNotAllowed : Nat := 405

/-- An `http.ResponseWriter` as the handler sees it.  `header` is the map
`w.Header()`; `status` and `sentHeader` are fixed by the first
`WriteHeader`; `body` is what has been written.  The server's comparison of
the bytes written with a declared Content-Length is outside this model: the
transport never delivers more bytes of `res.Body` than the upstream
declared. -/
structure ResponseWriter where
  header : Header
  status : Option Nat
  sentHeader : Header
  body : List Nat
  deriving DecidableEq, Repr

/-- The writer a handler is called with. -/
def ResponseWriter.fresh : ResponseWriter :=
  { header := [], status := none, sentHeader := [], body := [] }

/-- Method `w.WriteHeader(code)`: the first call sends the status line and the
header map; a later call is superfluous and changes nothing. -/
def ResponseWriter.WriteHeader (w : ResponseWriter) (code : Nat) : ResponseWriter :=
  match w.status with
  | some _ => w
  | none => { w with status := some code, sentHeader := w.header }

/-- Function `bodyAllowedForStatus` of `net/http`. -/
def bodyAllowedForStatus (status : Nat) : Bool :=
  if 100 ≤ status ∧ status ≤ 199 then false
  else if status = 204 then false
  else if status = 304 then false
  else true

/-- Method `w.Write(data)`: sends status 200 first when no status was sent, then
appends `data` unless the status sent forbids a body. -/
def ResponseWriter.Write (w : ResponseWriter) (data : List Nat) : ResponseWriter :=
  let w1 := w.WriteHeader StatusOK
  if data = [] then w1
  else if bodyAllowedForStatus (w1.status.getD StatusOK) = false then w1
  else { w1 with body := w1.body ++ data }

/-- Call `w.Header().Set(key, value)`. -/
def ResponseWriter.SetHeader (w : ResponseWriter) (key value : String) : ResponseWriter :=
  { w with header := w.header.Set key value }

/-- The status the caller receives once the handler has returned: the one
sent, or 200 when the handler sent none. -/
def ResponseWriter.finalStatus (w : ResponseWriter) : Nat :=
  w.status.getD StatusOK

/-- Function `http.Error(w, error, code)`: sets the two headers, writes the status
and prints the message followed by a newline. -/
def httpError (w : ResponseWriter) (error : String) (code : Nat) : ResponseWriter :=
  let w1 := w.SetHeader "Content-Type" "text/plain; charset=utf-8"
  let w2 := w1.SetHeader "X-Content-Type-Options" "nosniff"
  let w3 := w2.WriteHeader code
  w3.Write (bytesOf error ++ [10])

/-- Function `io.Copy(w, src)` for a source holding `data`: nothing is written when
the source is empty. -/
def ioCopy (w : ResponseWriter) (data : List Nat) : ResponseWriter :=
  if data = [] then w else w.Write data

/-! ## proxyRequest (lines 63-174) -/

/-- The fields of `http.Response` the handler reads; `Body` is the whole
stream `res.Body` delivers. -/
structure Response where
  StatusCode : Nat
  Header : Header
  Body : List Nat
  deriving DecidableEq, Repr

/-- The outside world of one request: `net.LookupIP`, `url.Parse` and
`httpClient.Do` (the fetch, its redirects included). -/
structure World where
  LookupIP : String → Except String (List IP)
  Parse : String → Except String URL
  Do : Request → Except String Response

/-- What the handler does to the outside world.  The lookups `checkRedirect`
makes while a fetch follows redirects belong to the `clientDo` event. -/
inductive Event where
  /-- a call of `net.LookupIP` -/
  | lookupIP (host : String)
  /-- a call of `httpClient.Do` -/
  | clientDo (req : Request)
  /-- the `io.Copy` of line 173 ran and read `n` bytes of `res.Body` -/
  | copyBody (n : Nat)
  /-- the deferred `res.Body.Close()` -/
  | closeBody
  deriving DecidableEq, Repr

/-- The result of one call of the handler. -/
structure Outcome where
  w : ResponseWriter
  trace : List Event
  panicked : Bool
  deriving DecidableEq, Repr

/-- The target of lines 71-79. -/
inductive Target where
  /-- the slice `r.URL.Path[1:]` was out of range -/
  | panic
  /-- the call of `hex.DecodeString` returned an error -/
  | invalidEncoding
  /-- the value of `destURL` at line 81 -/
  | ok (destURL : String)
  deriving DecidableEq, Repr

/-- Lines 71-79: the `url` query parameter when it is not empty, else the
path without its first byte, decoded from hexadecimal. -/
def destURLOf (r : Request) : Target :=
  let destURL := valuesGet r.URL.Query "url"
  if destURL = "" then
    if r.URL.Path.length < 1 then Target.panic
    else
      match hexDecodeString (sliceFrom r.URL.Path 1).toList with
      | none => Target.invalidEncoding
      | some destURLBytes => Target.ok (stringOf destURLBytes)
  else Target.ok destURL

/-- Lines 99-125: the outbound request.  `http.NewRequest("GET", destURL, nil)`
parses `destURL` as line 81 did, so its URL is `dest` and its `Host` is
the host of `dest`. -/
def outboundRequest (r : Request) (dest : URL) : Request :=
  let acceptHeader := if r.Header.Get "Accept" = "" then "image/*" else r.Header.Get "Accept"
  let h0 : Header := []
  let h1 := h0.Set "User-Agent" (r.Header.Get "User-Agent")
  let h2 := h1.Set "X-Content-Type-Options" "nosniff"
  let h3 := h2.Set "Accept" acceptHeader
  let h4 := h3.Set "Accept-Encoding" (r.Header.Get "Accept-Encoding")
  let via0 := r.Header.Get "Via"
  let via1 := if via0 ≠ "" then via0 ++ ", " else via0
  let via := via1 ++ "1.1 assetproxy"
  let h5 := h4.Set "Via" via
  let ifModifiedSince := r.Header.Get "If-Modified-Since"
  let h6 := if ifModifiedSince ≠ "" then h5.Set "If-Modified-Since" ifModifiedSince else h5
  let ifNoneMatch := r.Header.Get "If-None-Match"
  let h7 := if ifNoneMatch ≠ "" then h6.Set "If-None-Match" ifNoneMatch else h6
  { Method := "GET", URL := dest, Header := h7, Host := dest.Host }

/-- Lines 134-173: the filter on the upstream response and the copy of its
body.  Returns the writer and the events of the copy. -/
def relayResponse (w : ResponseWriter) (res : Response) : ResponseWriter × List Event :=
  if res.StatusCode ≠ StatusOK ∧ res.StatusCode ≠ StatusNotModified then
    (w.WriteHeader StatusNotFound, [])
  else
    let contentType := res.Header.Get "Content-Type"
    if contentType.length < 5 ∨ sliceTo contentType 5 ≠ "image" then
      (httpError w "Received invalid Content-Type" StatusNotFound, [])
    else
      let w1 := w.SetHeader "Content-Type" contentType
      let etag := res.Header.Get "ETag"
      let w2 := if etag ≠ "" then w1.SetHeader "ETag" etag else w1
      let contentEncoding := res.Header.Get "Content-Encoding"
      let w3 := if contentEncoding ≠ "" then w2.SetHeader "Content-Encoding" contentEncoding else w2
      let contentLength := res.Header.Get "Content-Length"
      let parsedContentLength := atoi contentLength
      if parsedContentLength > (maxSize : Int) then
        (httpError w3 "Response is too large" StatusBadRequest, [])
      else
        let w4 := if contentLength ≠ "" then w3.SetHeader "Content-Length" contentLength else w3
        let cacheControl :=
          if res.Header.Get "Cache-Control" = "" then "public, max-age=3600"
          else res.Header.Get "Cache-Control"
        let w5 := w4.SetHeader "Cache-Control" cacheControl
        let w6 := w5.SetHeader "X-Content-Type-Options" "nosniff"
        -- io.Copy(w, io.LimitReader(res.Body, maxSize))
        (ioCopy w6 (res.Body.take maxSize), [Event.copyBody (res.Body.take maxSize).length])

/-- The handler `proxyRequest` (lines 63-174), called with the writer `w`
and the request `r`.  Neither of the first two `if` statements returns. -/
def proxyRequest (world : World) (w : ResponseWriter) (r : Request) : Outcome :=
  -- lines 64-66
  let wa :=
    if stringsIndex (r.Header.Get "Via") "assetproxy" ≠ -1 then
      httpError w "Requesting from self" StatusBadRequest
    else w
  -- lines 67-69
  let wb :=
    if r.Method ≠ "GET" then httpError wa "Only GET is allowed" StatusMethodNotAllowed
    else wa
  -- lines 71-79
  match destURLOf r with
  | Target.panic => { w := wb, trace := [], panicked := true }
  | Target.invalidEncoding =>
    { w := httpError wb "Invalid URL encoding" StatusBadRequest, trace := [], panicked := false }
  | Target.ok destURL =>
    -- lines 81-85
    match world.Parse destURL with
    | Except.error _ =>
      { w := httpError wb "Invalid URL" StatusBadRequest, trace := [], panicked := false }
    | Except.ok dest =>
      if dest.Scheme ≠ "http" ∧ dest.Scheme ≠ "https" then
        { w := httpError wb "Invalid URL scheme, expected http" StatusBadRequest,
          trace := [], panicked := false }
      else if dest.Host = "" then
        { w := httpError wb "Missing URL host" StatusBadRequest, trace := [], panicked := false }
      else
        -- lines 94-97
        match hostAllowed world.LookupIP dest.Host with
        | none => { w := wb, trace := [Event.lookupIP dest.Host], panicked := true }
        | some false =>
          { w := httpError wb "Invalid host" StatusNotFound,
            trace := [Event.lookupIP dest.Host], panicked := false }
        | some true =>
          -- lines 99-131
          let req := outboundRequest r dest
          match world.Do req with
          | Except.error e =>
            { w := httpError wb e StatusNotFound,
              trace := [Event.lookupIP dest.Host, Event.clientDo req], panicked := false }
          | Except.ok res =>
            -- lines 132-173
            let out := relayResponse wb res
            { w := out.1,
              trace := [Event.lookupIP dest.Host, Event.clientDo req] ++ out.2 ++ [Event.closeBody],
              panicked := false }

/-! ## Sample worlds and requests -/

/-- A resolver that knows four names, each with 4-byte A records, and the IP
literal `10.0.0.5`, which `net.LookupIP` answers without a query, in the
16-byte form of the address. -/
def sampleLookup (host : String) : Except String (List IP) :=
  if host = "example.com" then Except.ok [[93, 184, 216, 34]]
  else if host = "google.example" then Except.ok [[172, 217, 0, 1]]
  else if host = "intranet.example" then Except.ok [[10, 0, 0, 5]]
  else if host = "10.0.0.5" then
    Except.ok [List.replicate 10 0 ++ [255, 255, 10, 0, 0, 5]]
  else if host = "mixed.example" then Except.ok [[93, 184, 216, 34], [192, 168, 1, 1]]
  else Except.error "no such host"

/-- A parser that knows three URLs. -/
def sampleParse (s : String) : Except String URL :=
  if s = "http://example.com/a.png" then
    Except.ok { Scheme := "http", Host := "example.com", Path := "/a.png", Query := [] }
  else if s = "http://intranet.example/x.png" then
    Except.ok { Scheme := "http", Host := "intranet.example", Path := "/x.png", Query := [] }
  else if s = "http://10.0.0.5/x.png" then
    Except.ok { Scheme := "http", Host := "10.0.0.5", Path := "/x.png", Query := [] }
  else Except.error "parse error"

/-- A world whose upstream answers every fetch with `res`. -/
def sampleWorld (res : Response) : World :=
  { LookupIP := sampleLookup, Parse := sampleParse, Do := fun _ => Except.ok res }

/-- A request for `/?url=target` with the given method and headers. -/
def sampleRequest (method target : String) (h : Header) : Request :=
  { Method := method,
    URL := { Scheme := "", Host := "", Path := "/", Query := [("url", target)] },
    Header := h, Host := "proxy.example" }

/-- The URL `http://example.com/a.png`, parsed. -/
def exampleURL : URL :=
  { Scheme := "http", Host := "example.com", Path := "/a.png", Query := [] }

/-- An upstream answer: 200, a PNG of three bytes, no Content-Length. -/
def samplePng : Response :=
  { StatusCode := 200, Header := [("Content-Type", "image/png")], Body := [1, 2, 3] }

/-- An upstream answer: 304 Not Modified for an image, no body. -/
def sampleNotModified : Response :=
  { StatusCode := 304, Header := [("Content-Type", "image/png"), ("Etag", "v1")], Body := [] }

/-- An upstream answer that declares ten million bytes. -/
def sampleHuge : Response :=
  { StatusCode := 200,
    Header := [("Content-Type", "image/png"), ("Content-Length", "10000000")],
    Body := [1, 2, 3] }

/-- The request a redirect to `http://intranet.example/x.png` makes the
client build: the `Host` field is empty, the URL names the host, a name whose
A record is the private address 10.0.0.5. -/
def redirectToPrivate : Request :=
  { Method := "GET",
    URL := { Scheme := "http", Host := "intranet.example", Path := "/x.png", Query := [] },
    Header := [], Host := "" }

/-- A redirect to `http://example.com/a.png`. -/
def redirectToPublic : Request :=
  { Method := "GET", URL := exampleURL, Header := [], Host := "" }

/-! ## Facts about the loops of hostAllowed -/

theorem octetLoop_zero_cons (a : Nat) (t : IP) (b : Nat) (r : List Nat) :
    octetLoop (a :: t) 0 (b :: r)
      = if a ≠ b then Flow.continueNetworks else Flow.returnFalse := by
  simp [octetLoop]

theorem networksLoop_ne_continue (ip : IP) :
    ∀ nets : List (List Nat), networksLoop ip nets ≠ Flow.continueNetworks := by
  intro nets
  induction nets with
  | nil => simp [networksLoop]
  | cons net rest ih =>
    unfold networksLoop
    split <;> simp_all

theorem networksLoop_cons_ne_panic (a : Nat) (t : IP) :
    ∀ nets : List (List Nat), networksLoop (a :: t) nets ≠ Flow.panic := by
  intro nets
  induction nets with
  | nil => simp [networksLoop]
  | cons net rest ih =>
    unfold networksLoop
    cases net with
    | nil => simpa [octetLoop] using ih
    | cons b r =>
      rw [octetLoop_zero_cons]
      by_cases hab : a = b
      · simp [hab]
      · simpa [hab] using ih

theorem networksLoop_done_not_prefix (ip : IP) :
    ∀ nets : List (List Nat), (∀ net ∈ nets, net ≠ []) →
      networksLoop ip nets = Flow.done → ∀ net ∈ nets, ¬ net <+: ip := by
  intro nets
  induction nets with
  | nil => intro _ _ net hnet; simp at hnet
  | cons n rest ih =>
    intro hne hdone net hnet
    have hrest : ∀ m ∈ rest, m ≠ [] := fun m hm => hne m (List.mem_cons_of_mem _ hm)
    cases n with
    | nil => exact absurd rfl (hne [] (List.mem_cons_self _ _))
    | cons b r =>
      cases ip with
      | nil => simp [networksLoop, octetLoop] at hdone
      | cons a t =>
        unfold networksLoop at hdone
        rw [octetLoop_zero_cons] at hdone
        by_cases hab : a = b
        · simp [hab] at hdone
        · simp only [ne_eq, hab, not_false_eq_true, if_true] at hdone
          rcases List.mem_cons.mp hnet with h | h
          · subst h
            intro hp
            have := List.cons_prefix_cons.mp hp
            exact hab this.1.symm
          · exact ih hrest hdone net h

theorem networksLoop_prefix_returnFalse (a : Nat) (t : IP) :
    ∀ nets : List (List Nat), (∃ net ∈ nets, net ≠ [] ∧ net <+: (a :: t)) →
      networksLoop (a :: t) nets = Flow.returnFalse := by
  intro nets
  induction nets with
  | nil => intro h; simp at h
  | cons n rest ih =>
    intro h
    obtain ⟨net, hmem, hne, hp⟩ := h
    unfold networksLoop
    cases n with
    | nil =>
      have hin : net ∈ rest := by
        rcases List.mem_cons.mp hmem with h | h
        · exact absurd h hne
        · exact h
      simpa [octetLoop] using ih ⟨net, hin, hne, hp⟩
    | cons b r =>
      rw [octetLoop_zero_cons]
      by_cases hab : a = b
      · simp [hab]
      · have hin : net ∈ rest := by
          rcases List.mem_cons.mp hmem with h | h
          · subst h
            exact absurd (List.cons_prefix_cons.mp hp).1.symm hab
          · exact h
        simpa [hab] using ih ⟨net, hin, hne, hp⟩

theorem ipsLoop_ne_continue : ∀ ips : List IP, ipsLoop ips ≠ Flow.continueNetworks := by
  intro ips
  induction ips with
  | nil => simp [ipsLoop]
  | cons ip rest ih =>
    unfold ipsLoop
    split <;> simp_all

theorem ipsLoop_done_all (ips : List IP) :
    ipsLoop ips = Flow.done → ∀ ip ∈ ips, networksLoop ip blockNetworks = Flow.done := by
  induction ips with
  | nil => intro _ ip hip; simp at hip
  | cons i rest ih =>
    intro h ip hip
    unfold ipsLoop at h
    cases hi : networksLoop i blockNetworks with
    | panic => simp [hi] at h
    | returnFalse => simp [hi] at h
    | continueNetworks => exact absurd hi (networksLoop_ne_continue i blockNetworks)
    | done =>
      simp only [hi] at h
      rcases List.mem_cons.mp hip with e | e
      · subst e; exact hi
      · exact ih h ip e

theorem ipsLoop_blocked_returnFalse (ips : List IP) :
    (∀ ip ∈ ips, ip ≠ []) →
    (∃ ip ∈ ips, ∃ net ∈ blockNetworks, net <+: ip) →
      ipsLoop ips = Flow.returnFalse := by
  induction ips with
  | nil => intro _ h; simp at h
  | cons i rest ih =>
    intro hne h
    have hi0 : i ≠ [] := hne i (List.mem_cons_self _ _)
    obtain ⟨a, t, rfl⟩ := List.exists_cons_of_ne_nil hi0
    unfold ipsLoop
    cases hi : networksLoop (a :: t) blockNetworks with
    | panic => exact absurd hi (networksLoop_cons_ne_panic a t blockNetworks)
    | returnFalse => rfl
    | continueNetworks => exact absurd hi (networksLoop_ne_continue _ blockNetworks)
    | done =>
      simp only
      apply ih (fun ip hip => hne ip (List.mem_cons_of_mem _ hip))
      obtain ⟨ip, hip, net, hnet, hp⟩ := h
      rcases List.mem_cons.mp hip with e | e
      · subst e
        have hnn : net ≠ [] := by
          simp [blockNetworks] at hnet
          rcases hnet with h | h | h | h <;> simp [h]
        rw [networksLoop_prefix_returnFalse a t blockNetworks ⟨net, hnet, hnn, hp⟩] at hi
        cases hi
      · exact ⟨ip, e, net, hnet, hp⟩

theorem blockNetworks_nonempty : ∀ net ∈ blockNetworks, net ≠ [] := by
  intro net hnet
  simp [blockNetworks] at hnet
  rcases hnet with h | h | h | h <;> simp [h]

theorem validIP_ne_nil (ip : IP) (h : validIP ip) : ip ≠ [] := by
  intro e
  subst e
  simp [validIP] at h

/-! ## hostAllowed -/

/-- C4: `hostAllowed` returns true only if the lookup succeeded, returned at
least one address and no returned address begins with a blocked prefix; it
returns false when the lookup fails, when it returns no address, and when
any one of the (4- or 16-byte) addresses returned begins with a blocked
prefix, wherever that address stands in the list. -/
theorem hostAllowed_true_only_if (lookupIP : String → Except String (List IP)) (host : String) :
    (hostAllowed lookupIP host = some true →
      ∃ ips, lookupIP host = Except.ok ips ∧ ips ≠ [] ∧
        ∀ ip ∈ ips, ∀ net ∈ blockNetworks, ¬ net <+: ip) ∧
    ((∃ e, lookupIP host = Except.error e) → hostAllowed lookupIP host = some false) ∧
    (lookupIP host = Except.ok [] → hostAllowed lookupIP host = some false) ∧
    (∀ ips, lookupIP host = Except.ok ips → (∀ ip ∈ ips, validIP ip) →
      (∃ ip ∈ ips, ∃ net ∈ blockNetworks, net <+: ip) →
        hostAllowed lookupIP host = some false) := by
  refine ⟨?_, ?_, ?_, ?_⟩
  · intro h
    unfold hostAllowed hostAllowedOf at h
    cases hl : lookupIP host with
    | error e => simp [hl] at h
    | ok ips =>
      simp only [hl] at h
      by_cases h0 : ips.length = 0
      · simp [h0] at h
      · simp only [h0, if_false] at h
        refine ⟨ips, rfl, ?_, ?_⟩
        · intro e; apply h0; simp [e]
        · cases hloop : ipsLoop ips with
          | panic => simp [hloop] at h
          | returnFalse => simp [hloop] at h
          | continueNetworks => exact absurd hloop (ipsLoop_ne_continue ips)
          | done =>
            intro ip hip
            exact networksLoop_done_not_prefix ip blockNetworks blockNetworks_nonempty
              (ipsLoop_done_all ips hloop ip hip)
  · rintro ⟨e, he⟩
    simp [hostAllowed, hostAllowedOf, he]
  · intro he
    simp [hostAllowed, hostAllowedOf, he]
  · intro ips hl hvalid hblocked
    have hloop := ipsLoop_blocked_returnFalse ips
      (fun ip hip => validIP_ne_nil ip (hvalid ip hip)) hblocked
    unfold hostAllowed hostAllowedOf
    simp only [hl, hloop]
    split <;> rfl

/-- Witness of C4 at a host with one public address (allowed), and at a host
whose second address is private (not allowed). -/
theorem hostAllowed_true_only_if_witness :
    (hostAllowed sampleLookup "example.com" = some true ∧
      ∃ ips, sampleLookup "example.com" = Except.ok ips ∧ ips ≠ [] ∧
        ∀ ip ∈ ips, ∀ net ∈ blockNetworks, ¬ net <+: ip) ∧
    hostAllowed sampleLookup "mixed.example" = some false :=
  ⟨⟨by decide, (hostAllowed_true_only_if sampleLookup "example.com").1 (by decide)⟩,
   (hostAllowed_true_only_if sampleLookup "mixed.example").2.2.2
      [[93, 184, 216, 34], [192, 168, 1, 1]] (by rfl) (by decide)
      ⟨[192, 168, 1, 1], by decide, [192, 168], by decide, by decide⟩⟩

/-- C5 (evaluation of the code): a host that resolves only to 172.217.0.1,
an address that begins with none of the blocked prefixes, is not allowed:
the loop returns false as soon as the first octet equals the first octet
of a rule (here 172 of the rule 172.16). -/
theorem hostAllowed_first_octet_only :
    sampleLookup "google.example" = Except.ok [[172, 217, 0, 1]] ∧
    (∀ net ∈ blockNetworks, ¬ net <+: [172, 217, 0, 1]) ∧
    hostAllowed sampleLookup "google.example" = some false := by
  refine ⟨by rfl, by decide, by decide⟩

/-! ## checkRedirect -/

/-- C3 (evaluation of the code): a redirect to
`http://intranet.example/x.png`, a name with the private A record 10.0.0.5
that `hostAllowed` refuses, is accepted after one request: the request of a
redirect has an empty `Host` field, and the check of line 34 reads that field
and not the host of the URL. -/
theorem checkRedirect_empty_Host_accepted :
    hostAllowed sampleLookup redirectToPrivate.URL.Host = some false ∧
    redirectToPrivate.Host = "" ∧
    checkRedirect sampleLookup redirectToPrivate [redirectToPublic] = some (Except.ok ()) := by
  refine ⟨by decide, by decide, by rfl⟩

/-- C8: with `via` the requests already made, a fifth request is refused
whatever its host, and a redirect whose host is allowed (the `Host` field
being empty or the host of the URL) is accepted while fewer than 4 requests
have been made. -/
theorem checkRedirect_hop_limit (lookupIP : String → Except String (List IP))
    (req : Request) (via : List Request) :
    (4 ≤ via.length → ∃ msg, checkRedirect lookupIP req via = some (Except.error msg)) ∧
    (via.length < 4 → (req.Host = "" ∨ req.Host = req.URL.Host) →
      hostAllowed lookupIP req.URL.Host = some true →
        checkRedirect lookupIP req via = some (Except.ok ())) := by
  constructor
  · intro h
    exact ⟨"Stopped after 10 redirects", by simp [checkRedirect, h]⟩
  · intro h hHost hAllowed
    have h4 : ¬ via.length ≥ 4 := by omega
    unfold checkRedirect
    rw [if_neg h4]
    by_cases he : req.Host = ""
    · simp [he]
    · have hu : req.Host = req.URL.Host := hHost.resolve_left he
      simp [he, hu, hAllowed]

/-- Witness of C8: after three requests a redirect to an allowed host is
accepted; after four it is refused. -/
theorem checkRedirect_hop_limit_witness :
    checkRedirect sampleLookup redirectToPublic
      [redirectToPublic, redirectToPublic, redirectToPublic] = some (Except.ok ()) ∧
    ∃ msg, checkRedirect sampleLookup redirectToPublic
      [redirectToPublic, redirectToPublic, redirectToPublic, redirectToPublic]
        = some (Except.error msg) :=
  ⟨(checkRedirect_hop_limit sampleLookup redirectToPublic
      [redirectToPublic, redirectToPublic, redirectToPublic]).2
      (by decide) (Or.inl (by decide)) (by decide),
   (checkRedirect_hop_limit sampleLookup redirectToPublic
      [redirectToPublic, redirectToPublic, redirectToPublic, redirectToPublic]).1 (by decide)⟩

/-! ## Facts about the response writer -/

theorem bytesOf_newline_ne_nil (msg : String) : bytesOf msg ++ [10] ≠ [] := by
  simp

theorem httpError_of_none (w : ResponseWriter) (msg : String) (code : Nat)
    (h : w.status = none) (hb : bodyAllowedForStatus code = true) :
    (httpError w msg code).status = some code ∧
    (httpError w msg code).body = w.body ++ (bytesOf msg ++ [10]) := by
  simp [httpError, ResponseWriter.Write, ResponseWriter.WriteHeader,
    ResponseWriter.SetHeader, h, hb]

theorem httpError_of_some (w : ResponseWriter) (msg : String) (code c : Nat)
    (h : w.status = some c) (hb : bodyAllowedForStatus c = true) :
    (httpError w msg code).status = some c ∧
    (httpError w msg code).body = w.body ++ (bytesOf msg ++ [10]) := by
  simp [httpError, ResponseWriter.Write, ResponseWriter.WriteHeader,
    ResponseWriter.SetHeader, h, hb]

/-- The handler up to the call of `httpClient.Do`, for a request whose target
decodes, parses and names an allowed host. -/
theorem proxyRequest_fetch (world : World) (w : ResponseWriter) (r : Request)
    (destURL : String) (dest : URL) (res : Response)
    (hTarget : destURLOf r = Target.ok destURL)
    (hParse : world.Parse destURL = Except.ok dest)
    (hScheme : dest.Scheme = "http" ∨ dest.Scheme = "https")
    (hHost : dest.Host ≠ "")
    (hAllowed : hostAllowed world.LookupIP dest.Host = some true)
    (hDo : world.Do (outboundRequest r dest) = Except.ok res) :
    proxyRequest world w r =
      { w := (relayResponse
                (if r.Method ≠ "GET" then
                  httpError
                    (if stringsIndex (r.Header.Get "Via") "assetproxy" ≠ -1 then
                      httpError w "Requesting from self" StatusBadRequest
                    else w)
                    "Only GET is allowed" StatusMethodNotAllowed
                else
                  (if stringsIndex (r.Header.Get "Via") "assetproxy" ≠ -1 then
                    httpError w "Requesting from self" StatusBadRequest
                  else w)) res).1,
        trace := [Event.lookupIP dest.Host, Event.clientDo (outboundRequest r dest)]
          ++ (relayResponse
                (if r.Method ≠ "GET" then
                  httpError
                    (if stringsIndex (r.Header.Get "Via") "assetproxy" ≠ -1 then
                      httpError w "Requesting from self" StatusBadRequest
                    else w)
                    "Only GET is allowed" StatusMethodNotAllowed
                else
                  (if stringsIndex (r.Header.Get "Via") "assetproxy" ≠ -1 then
                    httpError w "Requesting from self" StatusBadRequest
                  else w)) res).2
          ++ [Event.closeBody],
        panicked := false } := by
  have hS : ¬ (dest.Scheme ≠ "http" ∧ dest.Scheme ≠ "https") := by
    rcases hScheme with h | h <;> simp [h]
  unfold proxyRequest
  simp only [hTarget, hParse, if_neg hS, if_neg hHost, hAllowed, hDo]

/-! ## Facts about the response filter -/

theorem parseUintLoop_digits (ds : List Char) :
    ∀ n : Nat, allDigits ds = true →
      parseUintLoop ds n = (ds.foldl (fun n ch => n * 10 + (ch.toNat - 48)) n, NumError.nil) ∨
      parseUintLoop ds n = (2 ^ 64 - 1, NumError.rangeError) := by
  induction ds with
  | nil => intro n _; left; rfl
  | cons c t ih =>
    intro n hd
    simp only [allDigits, List.all_cons, Bool.and_eq_true, decide_eq_true_eq] at hd
    have hc : 48 ≤ c.toNat ∧ c.toNat ≤ 57 := hd.1
    have ht : allDigits t = true := by simpa [allDigits] using hd.2
    unfold parseUintLoop
    rw [if_neg (not_not.mpr hc)]
    by_cases h1 : n ≥ (2 ^ 64 - 1) / 10 + 1
    · right; rw [if_pos h1]
    · rw [if_neg h1]
      by_cases h2 : n * 10 + (c.toNat - 48) > 2 ^ 64 - 1
      · right; rw [if_pos h2]
      · rw [if_neg h2]
        simpa using ih (n * 10 + (c.toNat - 48)) ht

theorem atoi_digits_gt (s : String) (hne : s.toList ≠ [])
    (hd : allDigits s.toList = true) (hv : digitsValue s.toList > maxSize) :
    atoi s > (maxSize : Int) := by
  obtain ⟨c, t, hct⟩ := List.exists_cons_of_ne_nil hne
  have hc : 48 ≤ c.toNat ∧ c.toNat ≤ 57 := by
    have := hd
    rw [hct] at this
    simp [allDigits] at this
    exact this.1
  have hminus : c ≠ Char.ofNat 45 := by
    intro e
    have : c.toNat = 45 := by rw [e]; decide
    omega
  have hplus : c ≠ Char.ofNat 43 := by
    intro e
    have : c.toNat = 43 := by rw [e]; decide
    omega
  have hd2 : allDigits (c :: t) = true := hct ▸ hd
  have hv2 : digitsValue (c :: t) > maxSize := hct ▸ hv
  have hloop := parseUintLoop_digits (c :: t) 0 hd2
  unfold atoi parseInt
  simp only [hct, List.head?_cons, Option.some.injEq, hminus, hplus, or_self, if_false,
    decide_False, reduceCtorEq, parseUint]
  rcases hloop with h | h
  · rw [h]
    simp only [true_and, Bool.false_eq_true, false_and, if_false]
    by_cases hbig : List.foldl (fun n ch => n * 10 + (ch.toNat - 48)) 0 (c :: t) ≥ 2 ^ 63
    · rw [if_pos hbig]
      simp [maxSize]
    · rw [if_neg hbig]
      have : digitsValue (c :: t) = List.foldl (fun n ch => n * 10 + (ch.toNat - 48)) 0 (c :: t) :=
        rfl
      rw [this] at hv2
      exact_mod_cast hv2
  · rw [h]
    simp [maxSize]

theorem image_prefix_passes (ct : String) (h : "image".toList <+: ct.toList) :
    ¬ (ct.length < 5 ∨ sliceTo ct 5 ≠ "image") := by
  obtain ⟨t, ht⟩ := h
  have hlen : ct.length = 5 + t.length := by
    have : ct.length = ct.toList.length := rfl
    rw [this, ← ht]
    simp
    omega
  have htake : sliceTo ct 5 = "image" := by
    unfold sliceTo
    rw [← ht]
    rfl
  intro hor
  rcases hor with h1 | h2
  · omega
  · exact h2 htake

theorem relayResponse_too_large (w : ResponseWriter) (res : Response)
    (hStatus : res.StatusCode = 200 ∨ res.StatusCode = 304)
    (hType : "image".toList <+: (res.Header.Get "Content-Type").toList)
    (hLen : atoi (res.Header.Get "Content-Length") > (maxSize : Int)) :
    ∃ w3 : ResponseWriter, w3.status = w.status ∧ w3.body = w.body ∧
      relayResponse w res = (httpError w3 "Response is too large" StatusBadRequest, []) := by
  have hS : ¬ (res.StatusCode ≠ StatusOK ∧ res.StatusCode ≠ StatusNotModified) := by
    rcases hStatus with h | h <;> simp [h, StatusOK, StatusNotModified]
  have hT := image_prefix_passes _ hType
  unfold relayResponse
  simp only [if_neg hS, if_neg hT, if_pos hLen]
  refine ⟨_, ?_, ?_, rfl⟩
  · split <;> split <;> rfl
  · split <;> split <;> rfl

theorem relayResponse_accepted (w : ResponseWriter) (res : Response)
    (hStatus : res.StatusCode = 200 ∨ res.StatusCode = 304)
    (hType : "image".toList <+: (res.Header.Get "Content-Type").toList)
    (hLen : atoi (res.Header.Get "Content-Length") ≤ (maxSize : Int)) :
    ∃ w6 : ResponseWriter, w6.status = w.status ∧ w6.body = w.body ∧
      relayResponse w res =
        (ioCopy w6 (res.Body.take maxSize),
         [Event.copyBody (res.Body.take maxSize).length]) := by
  have hS : ¬ (res.StatusCode ≠ StatusOK ∧ res.StatusCode ≠ StatusNotModified) := by
    rcases hStatus with h | h <;> simp [h, StatusOK, StatusNotModified]
  have hT := image_prefix_passes _ hType
  have hL : ¬ atoi (res.Header.Get "Content-Length") > (maxSize : Int) := not_lt.mpr hLen
  unfold relayResponse
  simp only [if_neg hS, if_neg hT, if_neg hL]
  refine ⟨_, ?_, ?_, rfl⟩
  · split <;> split <;> split <;> rfl
  · split <;> split <;> split <;> rfl

theorem ioCopy_unsent (w : ResponseWriter) (data : List Nat) (h : w.status = none) :
    (ioCopy w data).body = w.body ++ data ∧ (ioCopy w data).finalStatus = 200 := by
  by_cases hd : data = []
  · simp [ioCopy, hd, ResponseWriter.finalStatus, h, StatusOK]
  · simp [ioCopy, hd, ResponseWriter.Write, ResponseWriter.WriteHeader, h,
      ResponseWriter.finalStatus, StatusOK, bodyAllowedForStatus]

/-! ## proxyRequest: rejections -/

/-- C6: a GET request without the proxy's token in `Via`, whose target
parses as an http or https URL with a host that `hostAllowed` refuses, gets
status 404 with the message "Invalid host"; the only call to the outside
world is the lookup of that host: `httpClient.Do` is not called and no byte
of an upstream body is read. -/
theorem proxyRequest_blocked_host (world : World) (r : Request)
    (destURL : String) (dest : URL)
    (hGet : r.Method = "GET")
    (hVia : stringsIndex (r.Header.Get "Via") "assetproxy" = -1)
    (hTarget : destURLOf r = Target.ok destURL)
    (hParse : world.Parse destURL = Except.ok dest)
    (hScheme : dest.Scheme = "http" ∨ dest.Scheme = "https")
    (hHost : dest.Host ≠ "")
    (hBlocked : hostAllowed world.LookupIP dest.Host = some false) :
    (proxyRequest world ResponseWriter.fresh r).w.finalStatus = 404 ∧
    (proxyRequest world ResponseWriter.fresh r).w.body = bytesOf "Invalid host\n" ∧
    (proxyRequest world ResponseWriter.fresh r).trace = [Event.lookupIP dest.Host] ∧
    (∀ req, Event.clientDo req ∉ (proxyRequest world ResponseWriter.fresh r).trace) ∧
    (∀ n, Event.copyBody n ∉ (proxyRequest world ResponseWriter.fresh r).trace) ∧
    (proxyRequest world ResponseWriter.fresh r).panicked = false := by
  have hS : ¬ (dest.Scheme ≠ "http" ∧ dest.Scheme ≠ "https") := by
    rcases hScheme with h | h <;> simp [h]
  have hV : ¬ stringsIndex (r.Header.Get "Via") "assetproxy" ≠ -1 := by simp [hVia]
  have hG : ¬ r.Method ≠ "GET" := by simp [hGet]
  have hrun : proxyRequest world ResponseWriter.fresh r =
      { w := httpError ResponseWriter.fresh "Invalid host" StatusNotFound,
        trace := [Event.lookupIP dest.Host], panicked := false } := by
    unfold proxyRequest
    simp only [if_neg hV, if_neg hG, hTarget, hParse, if_neg hS, if_neg hHost, hBlocked]
  have hw : (httpError ResponseWriter.fresh "Invalid host" StatusNotFound).finalStatus = 404 ∧
      (httpError ResponseWriter.fresh "Invalid host" StatusNotFound).body
        = bytesOf "Invalid host\n" := by decide
  rw [hrun]
  refine ⟨hw.1, hw.2, rfl, ?_, ?_, rfl⟩
  · intro req; simp
  · intro n; simp

/-- Witness of C6: `GET /?url=http://intranet.example/x.png`, the name
having the private A record 10.0.0.5. -/
theorem proxyRequest_blocked_host_witness :
    (proxyRequest (sampleWorld samplePng) ResponseWriter.fresh
      (sampleRequest "GET" "http://intranet.example/x.png" [])).w.finalStatus = 404 ∧
    (proxyRequest (sampleWorld samplePng) ResponseWriter.fresh
      (sampleRequest "GET" "http://intranet.example/x.png" [])).trace
        = [Event.lookupIP "intranet.example"] :=
  have h := proxyRequest_blocked_host (sampleWorld samplePng)
    (sampleRequest "GET" "http://intranet.example/x.png" []) "http://intranet.example/x.png"
    { Scheme := "http", Host := "intranet.example", Path := "/x.png", Query := [] }
    (by decide) (by decide) (by decide) (by rfl) (Or.inl (by decide)) (by decide) (by decide)
  ⟨h.1, h.2.2.1⟩

/-- C6 (counterexample to the example of the claim): for
`GET /?url=http://10.0.0.5/x.png` the lookup answers the literal with the
16-byte form of the address, whose first byte is 0; `hostAllowed` is true,
the handler calls `httpClient.Do` and relays the upstream body with
status 200. -/
theorem proxyRequest_literal_private_fetched :
    hostAllowed sampleLookup "10.0.0.5" = some true ∧
    (proxyRequest (sampleWorld samplePng) ResponseWriter.fresh
      (sampleRequest "GET" "http://10.0.0.5/x.png" [])).w.finalStatus = 200 ∧
    (proxyRequest (sampleWorld samplePng) ResponseWriter.fresh
      (sampleRequest "GET" "http://10.0.0.5/x.png" [])).w.body = [1, 2, 3] ∧
    (proxyRequest (sampleWorld samplePng) ResponseWriter.fresh
      (sampleRequest "GET" "http://10.0.0.5/x.png" [])).trace
        = [Event.lookupIP "10.0.0.5",
           Event.clientDo (outboundRequest (sampleRequest "GET" "http://10.0.0.5/x.png" [])
             { Scheme := "http", Host := "10.0.0.5", Path := "/x.png", Query := [] }),
           Event.copyBody 3, Event.closeBody] := by
  refine ⟨by decide, by decide, by decide, by decide⟩

/-- C9: a GET request that reaches the response filter with an upstream
status of 200 or 304, a Content-Type that begins with "image" and a
Content-Length that is a decimal number above 5,242,880 gets status 400; the
message "Response is too large" is the last thing written to the body, and
the copy of the upstream body is never reached. -/
theorem proxyRequest_too_large (world : World) (r : Request)
    (destURL : String) (dest : URL) (res : Response)
    (hGet : r.Method = "GET")
    (hTarget : destURLOf r = Target.ok destURL)
    (hParse : world.Parse destURL = Except.ok dest)
    (hScheme : dest.Scheme = "http" ∨ dest.Scheme = "https")
    (hHost : dest.Host ≠ "")
    (hAllowed : hostAllowed world.LookupIP dest.Host = some true)
    (hDo : world.Do (outboundRequest r dest) = Except.ok res)
    (hStatus : res.StatusCode = 200 ∨ res.StatusCode = 304)
    (hType : "image".toList <+: (res.Header.Get "Content-Type").toList)
    (hDigits : (res.Header.Get "Content-Length").toList ≠ [] ∧
      allDigits (res.Header.Get "Content-Length").toList = true)
    (hLarge : digitsValue (res.Header.Get "Content-Length").toList > 5242880) :
    (proxyRequest world ResponseWriter.fresh r).w.finalStatus = 400 ∧
    (proxyRequest world ResponseWriter.fresh r).w.body =
      (if stringsIndex (r.Header.Get "Via") "assetproxy" ≠ -1
        then bytesOf "Requesting from self\n" else [])
      ++ bytesOf "Response is too large\n" ∧
    (proxyRequest world ResponseWriter.fresh r).trace =
      [Event.lookupIP dest.Host, Event.clientDo (outboundRequest r dest), Event.closeBody] ∧
    (∀ n, Event.copyBody n ∉ (proxyRequest world ResponseWriter.fresh r).trace) := by
  have hLen : atoi (res.Header.Get "Content-Length") > (maxSize : Int) :=
    atoi_digits_gt _ hDigits.1 hDigits.2 hLarge
  have hG : ¬ r.Method ≠ "GET" := by simp [hGet]
  rw [proxyRequest_fetch world ResponseWriter.fresh r destURL dest res
    hTarget hParse hScheme hHost hAllowed hDo]
  simp only [if_neg hG]
  have hmsg : bytesOf "Response is too large" ++ [10] = bytesOf "Response is too large\n" := by
    decide
  by_cases hV : stringsIndex (r.Header.Get "Via") "assetproxy" ≠ -1
  · simp only [if_pos hV]
    obtain ⟨w3, hs, hb, hrel⟩ := relayResponse_too_large
      (httpError ResponseWriter.fresh "Requesting from self" StatusBadRequest) res
      hStatus hType hLen
    have hself := httpError_of_none ResponseWriter.fresh "Requesting from self"
      StatusBadRequest rfl (by decide)
    have hw := httpError_of_some w3 "Response is too large" StatusBadRequest StatusBadRequest
      (hs.trans hself.1) (by decide)
    rw [hrel]
    refine ⟨?_, ?_, rfl, ?_⟩
    · unfold ResponseWriter.finalStatus
      rw [hw.1]
      rfl
    · rw [hw.2, hb, hself.2, hmsg]
      rfl
    · intro n; simp
  · simp only [if_neg hV]
    obtain ⟨w3, hs, hb, hrel⟩ := relayResponse_too_large ResponseWriter.fresh res
      hStatus hType hLen
    have hw := httpError_of_none w3 "Response is too large" StatusBadRequest
      (hs.trans rfl) (by decide)
    rw [hrel]
    refine ⟨?_, ?_, rfl, ?_⟩
    · unfold ResponseWriter.finalStatus
      rw [hw.1]
      rfl
    · rw [hw.2, hb, hmsg]
      rfl
    · intro n; simp

/-- Witness of C9: the upstream declares `Content-Length: 10000000`. -/
theorem proxyRequest_too_large_witness :
    (proxyRequest (sampleWorld sampleHuge) ResponseWriter.fresh
      (sampleRequest "GET" "http://example.com/a.png" [])).w.finalStatus = 400 ∧
    (proxyRequest (sampleWorld sampleHuge) ResponseWriter.fresh
      (sampleRequest "GET" "http://example.com/a.png" [])).w.body
        = bytesOf "Response is too large\n" :=
  have h := proxyRequest_too_large (sampleWorld sampleHuge)
    (sampleRequest "GET" "http://example.com/a.png" []) "http://example.com/a.png"
    exampleURL sampleHuge
    (by decide) (by decide) (by rfl) (Or.inl (by decide)) (by decide) (by decide) (by rfl)
    (Or.inl (by decide)) (by decide) (by decide) (by decide)
  ⟨h.1, h.2.1⟩

/-! ## proxyRequest: the relayed response -/

/-- C10: for a GET request without the proxy's token in `Via`, to an allowed
host, whose upstream response passes the filter, the body relayed is the
first `min n 5242880` bytes of the `n`-byte upstream body, unchanged and in
order: the whole body when `n ≤ 5242880`, exactly 5,242,880 bytes when it is
longer. -/
theorem proxyRequest_body_capped (world : World) (r : Request)
    (destURL : String) (dest : URL) (res : Response)
    (hGet : r.Method = "GET")
    (hVia : stringsIndex (r.Header.Get "Via") "assetproxy" = -1)
    (hTarget : destURLOf r = Target.ok destURL)
    (hParse : world.Parse destURL = Except.ok dest)
    (hScheme : dest.Scheme = "http" ∨ dest.Scheme = "https")
    (hHost : dest.Host ≠ "")
    (hAllowed : hostAllowed world.LookupIP dest.Host = some true)
    (hDo : world.Do (outboundRequest r dest) = Except.ok res)
    (hStatus : res.StatusCode = 200 ∨ res.StatusCode = 304)
    (hType : "image".toList <+: (res.Header.Get "Content-Type").toList)
    (hLen : atoi (res.Header.Get "Content-Length") ≤ 5242880) :
    (proxyRequest world ResponseWriter.fresh r).w.body = res.Body.take 5242880 ∧
    (proxyRequest world ResponseWriter.fresh r).w.body.length = min res.Body.length 5242880 ∧
    (res.Body.length ≤ 5242880 →
      (proxyRequest world ResponseWriter.fresh r).w.body = res.Body) ∧
    (5242880 < res.Body.length →
      (proxyRequest world ResponseWriter.fresh r).w.body.length = 5242880) := by
  have hV : ¬ stringsIndex (r.Header.Get "Via") "assetproxy" ≠ -1 := by simp [hVia]
  have hG : ¬ r.Method ≠ "GET" := by simp [hGet]
  have hbody : (proxyRequest world ResponseWriter.fresh r).w.body = res.Body.take 5242880 := by
    rw [proxyRequest_fetch world ResponseWriter.fresh r destURL dest res
      hTarget hParse hScheme hHost hAllowed hDo]
    simp only [if_neg hG, if_neg hV]
    obtain ⟨w6, hs, hb, hrel⟩ := relayResponse_accepted ResponseWriter.fresh res
      hStatus hType (by simpa [maxSize] using hLen)
    rw [hrel]
    have hc := (ioCopy_unsent w6 (res.Body.take maxSize) (hs.trans rfl)).1
    simp only [hc, hb]
    simp [ResponseWriter.fresh, maxSize]
  refine ⟨hbody, ?_, ?_, ?_⟩
  · rw [hbody, List.length_take, Nat.min_comm]
  · intro hle
    rw [hbody]
    exact List.take_of_length_le hle
  · intro hlt
    rw [hbody, List.length_take]
    omega

/-- Witness of C10: a three-byte PNG is relayed as it is. -/
theorem proxyRequest_body_capped_witness :
    (proxyRequest (sampleWorld samplePng) ResponseWriter.fresh
      (sampleRequest "GET" "http://example.com/a.png" [])).w.body = [1, 2, 3] :=
  (proxyRequest_body_capped (sampleWorld samplePng)
    (sampleRequest "GET" "http://example.com/a.png" []) "http://example.com/a.png"
    exampleURL samplePng
    (by decide) (by decide) (by decide) (by rfl) (Or.inl (by decide)) (by decide) (by decide)
    (by rfl) (Or.inl (by decide)) (by decide) (by decide)).2.2.1 (by decide)

/-! ## proxyRequest: evaluations -/

/-- C1 (evaluation of the code): a GET request whose `Via` header holds the
proxy's token gets status 400, but the handler goes on: the host is looked
up, `httpClient.Do` is called and the upstream body is appended to the error
message. -/
theorem proxyRequest_self_request_continues :
    stringsIndex
      ((sampleRequest "GET" "http://example.com/a.png" [("Via", "1.1 assetproxy")]).Header.Get
        "Via") "assetproxy" ≠ -1 ∧
    (proxyRequest (sampleWorld samplePng) ResponseWriter.fresh
      (sampleRequest "GET" "http://example.com/a.png" [("Via", "1.1 assetproxy")])).w.finalStatus
        = 400 ∧
    (proxyRequest (sampleWorld samplePng) ResponseWriter.fresh
      (sampleRequest "GET" "http://example.com/a.png" [("Via", "1.1 assetproxy")])).trace
        = [Event.lookupIP "example.com",
           Event.clientDo (outboundRequest
             (sampleRequest "GET" "http://example.com/a.png" [("Via", "1.1 assetproxy")])
             exampleURL),
           Event.copyBody 3, Event.closeBody] ∧
    (proxyRequest (sampleWorld samplePng) ResponseWriter.fresh
      (sampleRequest "GET" "http://example.com/a.png" [("Via", "1.1 assetproxy")])).w.body
        = bytesOf "Requesting from self\n" ++ [1, 2, 3] := by
  refine ⟨by decide, by decide, by decide, by decide⟩

/-- C2 (evaluation of the code): a POST request gets status 405, but the
handler goes on: for a valid target the upstream body follows the message
in the response body, and for a path that is no hexadecimal string a second
message does; with the proxy's token in `Via` the status is 400. -/
theorem proxyRequest_post_continues :
    (proxyRequest (sampleWorld samplePng) ResponseWriter.fresh
      (sampleRequest "POST" "http://example.com/a.png" [])).w.finalStatus = 405 ∧
    (proxyRequest (sampleWorld samplePng) ResponseWriter.fresh
      (sampleRequest "POST" "http://example.com/a.png" [])).w.body
        = bytesOf "Only GET is allowed\n" ++ [1, 2, 3] ∧
    (proxyRequest (sampleWorld samplePng) ResponseWriter.fresh
      { Method := "POST", URL := { Scheme := "", Host := "", Path := "/zz", Query := [] },
        Header := [], Host := "proxy.example" }).w.body
        = bytesOf "Only GET is allowed\nInvalid URL encoding\n" ∧
    (proxyRequest (sampleWorld samplePng) ResponseWriter.fresh
      (sampleRequest "POST" "http://example.com/a.png"
        [("Via", "1.1 assetproxy")])).w.finalStatus = 400 := by
  refine ⟨by decide, by decide, by decide, by decide⟩

/-- C7 (evaluation of the code): an upstream 304 Not Modified for an image
passes the filter, and the caller receives status 200: the handler never
writes the upstream status. -/
theorem proxyRequest_not_modified_as_200 :
    sampleNotModified.StatusCode = 304 ∧
    (proxyRequest (sampleWorld sampleNotModified) ResponseWriter.fresh
      (sampleRequest "GET" "http://example.com/a.png" [("If-None-Match", "v1")])).w.status
        = none ∧
    (proxyRequest (sampleWorld sampleNotModified) ResponseWriter.fresh
      (sampleRequest "GET" "http://example.com/a.png" [("If-None-Match", "v1")])).w.finalStatus
        = 200 ∧
    (proxyRequest (sampleWorld sampleNotModified) ResponseWriter.fresh
      (sampleRequest "GET" "http://example.com/a.png" [("If-None-Match", "v1")])).trace
        = [Event.lookupIP "example.com",
           Event.clientDo (outboundRequest
             (sampleRequest "GET" "http://example.com/a.png" [("If-None-Match", "v1")])
             exampleURL),
           Event.copyBody 0, Event.closeBody] := by
  refine ⟨by decide, by decide, by decide, by decide⟩

end Antechamber
